import Mathlib

/-!
Verification of the Zalo custom-reaction installer (`installer.py`).

The development shallowly embeds the pure logic of the installer:
  * the injector (`inject_script_to_html`) as a function on decoded text,
    together with the byte-level read/decode pipeline;
  * the version catalog (`parse_version` and the selection loop of
    `find_latest_zalo`);
  * the asar tool resolution (`get_asar_executable`, checked again inside
    `extract_asar`);
  * `download_file`, with the outcomes of the external calls (mkdir,
    HTTP get, open, chunked writes, unlink) given as an environment;
  * the commit step of `find_latest_zalo` (backup / swap / rollback of
    `app.asar`) as a state machine over the three interesting paths
    (`app.asar`, `app.asar.bak`, `unpacked_temp`), producing the trace of
    disk states that the run passes through.

Strings are modelled as `List Char` (Python `str` indices are code points),
bytes as `List Nat` (each `< 256`).
-/

namespace Installer

/-! ### Injector: pure text manipulation of `inject_script_to_html` -/

/-- Python `str.lower` restricted to ASCII, as used on the marker and content. -/
def lower (l : List Char) : List Char := l.map Char.toLower

/-- Search for `needle` at positions `k-1, k-2, ..., 0` of `hay`, returning the
largest position where `needle` occurs (`hay[i:]` starts with `needle`). -/
def lastOccAux (needle hay : List Char) : Nat → Option Nat
  | 0 => Option.none
  | k + 1 =>
    if needle.isPrefixOf (hay.drop k) then some k else lastOccAux needle hay k

/-- Python `str.rindex`: the largest index at which `needle` occurs in `hay`
(`none` when absent; for an empty needle this is `hay.length`, as in Python). -/
def lastOcc (needle hay : List Char) : Option Nat :=
  lastOccAux needle hay (hay.length + 1)

/-- Python substring membership `needle in hay`. -/
def containsSub (needle hay : List Char) : Bool := (lastOcc needle hay).isSome

/-- Python slice `l[a:b]` (for `a ≤ b`; clamping is by `Nat` truncation). -/
def slice (l : List Char) (a b : Nat) : List Char := (l.take b).drop a

/-- The injected tag: `f'<script src="{script_src}"></script>'`. -/
def scriptTag (src : List Char) : List Char :=
  "<script src=\"".data ++ src ++ "\"></script>".data

/-- The core of `inject_script_to_html` on decoded text: locate the last
case-insensitive occurrence of `marker`, check the idempotence window
`content[max(0, pos - len(tag) - 10):pos]`, and either leave the content
alone (`false` = no write) or insert `tag ++ "\n"` before the marker.
`none` models the `ValueError` branch (marker not found). -/
def inject (content src marker : List Char) : Option (List Char × Bool) :=
  let tag := scriptTag src
  match lastOcc (lower marker) (lower content) with
  | Option.none => Option.none
  | some pos =>
    let preceding := slice content (pos - (tag.length + 10)) pos
    if containsSub tag preceding then some (content, false)
    else some (content.take pos ++ tag ++ '\n' :: content.drop pos, true)

/-! ### Version catalog: `parse_version` and the selection in `find_latest_zalo` -/

/-- `int()` on a (nonempty) string of ASCII digits. -/
def digitsToNat (l : List Char) : Nat :=
  l.foldl (fun a c => a * 10 + (c.toNat - 48)) 0

/-- Strip a literal prefix, or fail. -/
def stripPre (p l : List Char) : Option (List Char) :=
  if p.isPrefixOf l then some (l.drop p.length) else Option.none

/-- Match `(\d+)\.(\d+)\.(\d+)` at the start of `l` (no end anchor, exactly as
in the source's regex). -/
def parseTriple (l : List Char) : Option (Nat × Nat × Nat) :=
  let s1 := l.span Char.isDigit
  if s1.1 = [] then Option.none
  else
    match s1.2 with
    | '.' :: r2 =>
      let s2 := r2.span Char.isDigit
      if s2.1 = [] then Option.none
      else
        match s2.2 with
        | '.' :: r4 =>
          let s3 := r4.span Char.isDigit
          if s3.1 = [] then Option.none
          else some (digitsToNat s1.1, digitsToNat s2.1, digitsToNat s3.1)
        | _ => Option.none
    | _ => Option.none

/-- `parse_version`: `re.match(r"^(ZaloPC|Zalo)-(\d+)\.(\d+)\.(\d+)", name,
re.IGNORECASE)`, returning the integer triple of the three digit groups. -/
def parse_version (name : List Char) : Option (Nat × Nat × Nat) :=
  let low := lower name
  match stripPre "zalopc-".data low with
  | some r => parseTriple r
  | Option.none =>
    match stripPre "zalo-".data low with
    | some r => parseTriple r
    | Option.none => Option.none

/-- Python `<` on `(major, minor, patch)` tuples: lexicographic. -/
def vlt (a b : Nat × Nat × Nat) : Bool :=
  decide (a.1 < b.1) ||
    (decide (a.1 = b.1) &&
      (decide (a.2.1 < b.2.1) ||
        (decide (a.2.1 = b.2.1) && decide (a.2.2 < b.2.2))))

/-- The element `found_folders.sort(key=lambda x: x[0], reverse=True)` places
first: the first element whose version is maximal (Python's sort is stable, so
among equal keys the earliest entry stays first). -/
def maxSel : List ((Nat × Nat × Nat) × List Char) → Option ((Nat × Nat × Nat) × List Char)
  | [] => Option.none
  | p :: rest =>
    match maxSel rest with
    | Option.none => some p
    | some q => if vlt p.1 q.1 then some q else some p

/-- The selection loop of `find_latest_zalo` (lines 263-281): collect the
subdirectory names whose `parse_version` succeeds, and pick the entry with the
largest version; `none` models the "No valid Zalo version folder" abort. -/
def selectLatest (names : List (List Char)) : Option ((Nat × Nat × Nat) × List Char) :=
  maxSel (names.filterMap fun n => (parse_version n).map (fun v => (v, n)))

/-! ### Text encodings tried by `inject_script_to_html`

The source reads the HTML file with `['utf-8', 'cp1252', 'latin-1']` in order,
remembers which encoding succeeded, and writes the new content back with it.
The three codecs are embedded below on byte lists. -/

/-- Strict UTF-8 decoding (rejects overlong forms, surrogates and values above
`U+10FFFF`, as Python's `utf-8` codec in strict mode does). -/
def utf8Decode : List Nat → Option (List Char)
  | [] => some []
  | b :: rest =>
    if b < 0x80 then (utf8Decode rest).map (fun cs => Char.ofNat b :: cs)
    else if b < 0xC2 then Option.none
    else if b < 0xE0 then
      match rest with
      | b1 :: r =>
        if 0x80 ≤ b1 ∧ b1 < 0xC0 then
          (utf8Decode r).map (fun cs => Char.ofNat ((b - 0xC0) * 64 + (b1 - 0x80)) :: cs)
        else Option.none
      | [] => Option.none
    else if b < 0xF0 then
      match rest with
      | b1 :: b2 :: r =>
        if (if b = 0xE0 then 0xA0 ≤ b1 ∧ b1 < 0xC0
            else if b = 0xED then 0x80 ≤ b1 ∧ b1 < 0xA0
            else 0x80 ≤ b1 ∧ b1 < 0xC0) ∧ 0x80 ≤ b2 ∧ b2 < 0xC0 then
          (utf8Decode r).map
            (fun cs => Char.ofNat ((b - 0xE0) * 4096 + (b1 - 0x80) * 64 + (b2 - 0x80)) :: cs)
        else Option.none
      | _ => Option.none
    else if b < 0xF5 then
      match rest with
      | b1 :: b2 :: b3 :: r =>
        if (if b = 0xF0 then 0x90 ≤ b1 ∧ b1 < 0xC0
            else if b = 0xF4 then 0x80 ≤ b1 ∧ b1 < 0x90
            else 0x80 ≤ b1 ∧ b1 < 0xC0) ∧
            0x80 ≤ b2 ∧ b2 < 0xC0 ∧ 0x80 ≤ b3 ∧ b3 < 0xC0 then
          (utf8Decode r).map
            (fun cs =>
              Char.ofNat
                ((b - 0xF0) * 262144 + (b1 - 0x80) * 4096 + (b2 - 0x80) * 64 + (b3 - 0x80)) :: cs)
        else Option.none
      | _ => Option.none
    else Option.none

/-- The bytes of `cp1252` in `0x80`-`0x9F` that are defined, with their code
points; the bytes `0x81, 0x8D, 0x8F, 0x90, 0x9D` are undefined and make strict
decoding fail. -/
def cp1252Table : List (Nat × Nat) :=
  [(0x80, 0x20AC), (0x82, 0x201A), (0x83, 0x0192), (0x84, 0x201E), (0x85, 0x2026),
   (0x86, 0x2020), (0x87, 0x2021), (0x88, 0x02C6), (0x89, 0x2030), (0x8A, 0x0160),
   (0x8B, 0x2039), (0x8C, 0x0152), (0x8E, 0x017D), (0x91, 0x2018), (0x92, 0x2019),
   (0x93, 0x201C), (0x94, 0x201D), (0x95, 0x2022), (0x96, 0x2013), (0x97, 0x2014),
   (0x98, 0x02DC), (0x99, 0x2122), (0x9A, 0x0161), (0x9B, 0x203A), (0x9C, 0x0153),
   (0x9E, 0x017E), (0x9F, 0x0178)]

/-- Strict `cp1252` decoding of one byte. -/
def cp1252DecodeByte (b : Nat) : Option Char :=
  if b < 0x80 ∨ (0xA0 ≤ b ∧ b < 0x100) then some (Char.ofNat b)
  else
    match cp1252Table.find? (fun p => p.1 == b) with
    | some p => some (Char.ofNat p.2)
    | Option.none => Option.none

/-- Strict `cp1252` decoding. -/
def cp1252Decode (bytes : List Nat) : Option (List Char) := bytes.mapM cp1252DecodeByte

/-- `latin-1` decoding: every byte maps to the code point of the same value,
so decoding never fails on genuine bytes (the guard rejects non-byte values,
which keeps the embedding total). -/
def latin1Decode (bytes : List Nat) : Option (List Char) :=
  bytes.mapM (fun b => if b < 0x100 then some (Char.ofNat b) else Option.none)

/-- UTF-8 encoding of one scalar value (total: Lean `Char` excludes surrogates). -/
def utf8EncodeChar (c : Char) : List Nat :=
  let n := c.toNat
  if n < 0x80 then [n]
  else if n < 0x800 then [0xC0 + n / 64, 0x80 + n % 64]
  else if n < 0x10000 then [0xE0 + n / 4096, 0x80 + n / 64 % 64, 0x80 + n % 64]
  else [0xF0 + n / 262144, 0x80 + n / 4096 % 64, 0x80 + n / 64 % 64, 0x80 + n % 64]

/-- UTF-8 encoding (never fails). -/
def utf8Encode (cs : List Char) : Option (List Nat) := some ((cs.map utf8EncodeChar).flatten)

/-- Strict `cp1252` encoding of one character. -/
def cp1252EncodeChar (c : Char) : Option Nat :=
  let n := c.toNat
  if n < 0x80 ∨ (0xA0 ≤ n ∧ n < 0x100) then some n
  else
    match cp1252Table.find? (fun p => p.2 == n) with
    | some p => some p.1
    | Option.none => Option.none

/-- Strict `cp1252` encoding. -/
def cp1252Encode (cs : List Char) : Option (List Nat) := cs.mapM cp1252EncodeChar

/-- Strict `latin-1` encoding. -/
def latin1Encode (cs : List Char) : Option (List Nat) :=
  cs.mapM (fun c => if c.toNat < 0x100 then some c.toNat else Option.none)

/-- The encodings tried by `inject_script_to_html`, in source order. -/
inductive Enc
  | utf8
  | cp1252
  | latin1
deriving DecidableEq, Repr

def decodeBytes : Enc → List Nat → Option (List Char)
  | .utf8 => utf8Decode
  | .cp1252 => cp1252Decode
  | .latin1 => latin1Decode

def encodeBytes : Enc → List Char → Option (List Nat)
  | .utf8 => utf8Encode
  | .cp1252 => cp1252Encode
  | .latin1 => latin1Encode

/-- The read loop of `inject_script_to_html`: try each encoding in order and
remember the first that decodes (`detected_encoding`); `none` models the
"Could not decode HTML file with common encodings" branch. -/
def readContent (bytes : List Nat) : Option (List Char × Enc) :=
  match utf8Decode bytes with
  | some c => some (c, Enc.utf8)
  | Option.none =>
    match cp1252Decode bytes with
    | some c => some (c, Enc.cp1252)
    | Option.none =>
      match latin1Decode bytes with
      | some c => some (c, Enc.latin1)
      | Option.none => Option.none

/-- `inject_script_to_html` at the file level: the result is the success flag
the function returns together with the bytes at the HTML path afterwards.
Failure to decode, a missing marker, or (unreachable, since the new text is the
decoded text plus ASCII) a failing re-encode all return `False` with the file
untouched; only a fresh injection rewrites the file. -/
def inject_script_to_html (fileBytes : List Nat) (src marker : List Char) :
    Bool × List Nat :=
  match readContent fileBytes with
  | Option.none => (false, fileBytes)
  | some (content, enc) =>
    match inject content src marker with
    | Option.none => (false, fileBytes)
    | some (c2, wrote) =>
      if wrote then
        match encodeBytes enc c2 with
        | some out => (true, out)
        | Option.none => (false, fileBytes)
      else (true, fileBytes)

/-! ### Tool resolution: `get_asar_executable` and the guard in `extract_asar` -/

/-- The environment `get_asar_executable` consults: `shutil.which`, the
platform, `APPDATA`, and whether the two npm fallback paths are files. -/
structure ToolEnv where
  whichResults : List Char → Option (List Char)
  isWin32 : Bool
  appdata : Option (List Char)
  npmCmdIsFile : Bool
  npmModulesCmdIsFile : Bool

/-- `APPDATA\npm\asar.cmd`. -/
def npmCmdPath (a : List Char) : List Char := a ++ "\\npm\\asar.cmd".data

/-- `APPDATA\npm\node_modules\asar\bin\asar.cmd`. -/
def npmModulesCmdPath (a : List Char) : List Char :=
  a ++ "\\npm\\node_modules\\asar\\bin\\asar.cmd".data

/-- `get_asar_executable`: `shutil.which('asar')`, then (on win32 with a
truthy `APPDATA`) the two npm locations, finally the bare name `'asar'` as a
soft fallback (with a warning).  The Python annotation is `Optional[str]` but
every path returns a string. -/
def get_asar_executable (env : ToolEnv) : List Char :=
  match env.whichResults "asar".data with
  | some p => p
  | Option.none =>
    match env.appdata with
    | some a =>
      if env.isWin32 ∧ a ≠ [] then
        if env.npmCmdIsFile then npmCmdPath a
        else if env.npmModulesCmdIsFile then npmModulesCmdPath a
        else "asar".data
      else "asar".data
    | Option.none => "asar".data

/-- Outcome of the `subprocess.run` invocation in `extract_asar`. -/
inductive RunResult
  | success
  | processError (code : Nat)
  | fileNotFound
  | otherError
deriving DecidableEq, Repr

/-- Environment for one `extract_asar` call: the tool environment plus the
outcomes of the filesystem operations and of the tool invocation itself. -/
structure ExtractEnv where
  tool : ToolEnv
  asarIsFile : Bool
  destExists : Bool
  rmtreeOk : Bool
  mkdirOk : Bool
  runOutcome : RunResult

/-- `extract_asar`, tracking whether the tool was ever invoked: the pair is
(returned success flag, `subprocess.run` reached).  The first guard is the
hard abort `if not asar_executable or not shutil.which(asar_executable):
return False`, which runs before any invocation. -/
def extract_asar (env : ExtractEnv) : Bool × Bool :=
  let exe := get_asar_executable env.tool
  if exe = [] ∨ env.tool.whichResults exe = Option.none then (false, false)
  else if ¬ env.asarIsFile then (false, false)
  else if env.destExists ∧ ¬ env.rmtreeOk then (false, false)
  else if ¬ env.mkdirOk then (false, false)
  else
    match env.runOutcome with
    | .success => (true, true)
    | _ => (false, true)

/-! ### `download_file` -/

/-- How the chunked transfer ends: normally, with a `RequestException` raised
while streaming, or with an `OSError` raised by a write. -/
inductive DlStop
  | completed
  | transportErr
  | writeErr
deriving DecidableEq, Repr

/-- Environment for one `download_file` call.  `chunksWritten` are the chunks
that were yielded and written before the transfer ended. -/
structure DlEnv where
  mkdirOk : Bool
  connectOk : Bool
  openOk : Bool
  chunksWritten : List (List Nat)
  stop : DlStop
  unlinkOk : Bool
deriving DecidableEq, Repr

/-- The `RequestException` handler's cleanup: `if destination_path.exists():
try: destination_path.unlink(...) except OSError: pass`. -/
def cleanupDest (unlinkOk : Bool) (f : Option (List Nat)) : Option (List Nat) :=
  match f with
  | Option.none => Option.none
  | some c => if unlinkOk then Option.none else some c

/-- `download_file`: the pair is (returned flag, bytes at the destination path
afterwards, `none` = no file).  `dest0` is the file initially at the
destination.  `open(..., 'wb')` truncates the file before the first chunk, so
after a successful open the file holds exactly the written chunks. -/
def download_file (env : DlEnv) (dest0 : Option (List Nat)) :
    Bool × Option (List Nat) :=
  if ¬ env.mkdirOk then (false, dest0)
  else if ¬ env.connectOk then (false, cleanupDest env.unlinkOk dest0)
  else if ¬ env.openOk then (false, dest0)
  else
    let written := env.chunksWritten.flatten
    match env.stop with
    | .completed => (true, some written)
    | .writeErr => (false, some written)
    | .transportErr => (false, cleanupDest env.unlinkOk (some written))

/-! ### The commit step of `find_latest_zalo` (lines 361-417)

The three paths touched by step 4 are `resources/app.asar` (`orig`),
`resources/app.asar.bak` (`backup`) and `resources/unpacked_temp` (`temp`).
Each holds a file, a directory, or nothing; the `Nat` payload identifies the
content (so "original archive" and "modified tree" stay distinguishable).
`commitStep` returns the list of disk states the run passes through (the
initial state first, then one entry per filesystem mutation) together with the
terminal outcome. -/

/-- What a filesystem path holds. -/
inductive FsNode
  | absent
  | file (c : Nat)
  | dir (c : Nat)
deriving DecidableEq, Repr

/-- The three paths of the commit step. -/
structure Disk where
  orig : FsNode
  backup : FsNode
  temp : FsNode
deriving DecidableEq, Repr

/-- Success/failure of each filesystem call the commit step can make. -/
structure CommitEnv where
  removeBackupOk : Bool
  renameToBackupOk : Bool
  removeTargetFileOk : Bool
  renameTempOk : Bool
  rollbackRemoveDirOk : Bool
  rollbackRenameOk : Bool
deriving DecidableEq, Repr

/-- Terminal outcomes of the commit step. -/
inductive Outcome
  | committed
  | abortedBackupStep
  | rolledBack
  | abortedRestoreFailed
  | abortedNoBackupFile
deriving DecidableEq, Repr

/-- `backup_asar_path.rename(original_asar_path)` inside the rollback handler:
on success the run reports `RolledBack`, on a raised exception it reports
"Automatic restore failed" and asks for manual recovery. -/
def rollbackRestore (env : CommitEnv) (d : Disk) (tr : List Disk) :
    List Disk × Outcome :=
  if env.rollbackRenameOk then
    let d' : Disk := { d with orig := d.backup, backup := FsNode.absent }
    (tr ++ [d'], Outcome.rolledBack)
  else (tr, Outcome.abortedRestoreFailed)

/-- The rollback path of the 4b handler: only runs when the backup is a file;
first removes `app.asar` if the failed rename left a directory there, then
renames the backup back. -/
def rollback (env : CommitEnv) (d : Disk) (tr : List Disk) :
    List Disk × Outcome :=
  match d.backup with
  | FsNode.file _ =>
    match d.orig with
    | FsNode.dir _ =>
      if env.rollbackRemoveDirOk then
        let d' : Disk := { d with orig := FsNode.absent }
        rollbackRestore env d' (tr ++ [d'])
      else (tr, Outcome.abortedRestoreFailed)
    | _ => rollbackRestore env d tr
  | _ => (tr, Outcome.abortedNoBackupFile)

/-- `unpacked_temp_dir.rename(target_asar_folder_path)` (step 4b): on failure
the `except OSError` handler attempts the rollback. -/
def renameTempStep (env : CommitEnv) (d : Disk) (tr : List Disk) :
    List Disk × Outcome :=
  if env.renameTempOk then
    let d' : Disk := { d with orig := d.temp, temp := FsNode.absent }
    (tr ++ [d'], Outcome.committed)
  else rollback env d tr

/-- The guard at the top of step 4b: if `app.asar` unexpectedly exists as a
file, unlink it (a raised `OSError` lands in the same 4b handler, i.e. the
rollback). -/
def targetFileGuard (env : CommitEnv) (d : Disk) (tr : List Disk) :
    List Disk × Outcome :=
  match d.orig with
  | FsNode.file _ =>
    if env.removeTargetFileOk then
      let d' : Disk := { d with orig := FsNode.absent }
      renameTempStep env d' (tr ++ [d'])
    else rollback env d tr
  | _ => renameTempStep env d tr

/-- `original_asar_path.rename(backup_asar_path)` (step 4a): on failure the
run aborts, reporting that the modified files remain at `unpacked_temp`. -/
def backupRename (env : CommitEnv) (d : Disk) (tr : List Disk) :
    List Disk × Outcome :=
  if env.renameToBackupOk then
    let d' : Disk := { d with backup := d.orig, orig := FsNode.absent }
    targetFileGuard env d' (tr ++ [d'])
  else (tr, Outcome.abortedBackupStep)

/-- Step 4 of `find_latest_zalo`, entered when the original `app.asar` was a
packed file.  The stale-backup removal sits inside the same `try` as the
backup rename, so a failing removal raises into the same `except OSError`
handler and aborts the run. -/
def commitStep (env : CommitEnv) (d0 : Disk) : List Disk × Outcome :=
  match d0.backup with
  | FsNode.absent => backupRename env d0 [d0]
  | _ =>
    if env.removeBackupOk then
      let d1 : Disk := { d0 with backup := FsNode.absent }
      backupRename env d1 [d0, d1]
    else ([d0], Outcome.abortedBackupStep)

end Installer

namespace Installer

/-! ## Lemmas about `lastOcc` and `containsSub` -/

lemma lastOccAux_eq_some_iff (n h : List Char) :
    ∀ k p, lastOccAux n h k = some p ↔
      p < k ∧ n.isPrefixOf (h.drop p) = true ∧
        ∀ j, p < j → j < k → n.isPrefixOf (h.drop j) = false := by
  intro k
  induction k with
  | zero => intro p; simp [lastOccAux]
  | succ k ih =>
    intro p
    rw [lastOccAux]
    by_cases hk : n.isPrefixOf (h.drop k) = true
    · rw [if_pos hk]
      constructor
      · intro he
        obtain rfl : k = p := Option.some.inj he
        refine ⟨Nat.lt_succ_self _, hk, ?_⟩
        intro j h1 h2
        exfalso; omega
      · rintro ⟨h1, h2, h3⟩
        rcases Nat.lt_succ_iff_lt_or_eq.mp h1 with hlt | rfl
        · exact absurd hk (by simp [h3 k hlt (Nat.lt_succ_self _)])
        · rfl
    · have hkf : n.isPrefixOf (h.drop k) = false := by
        cases hx : n.isPrefixOf (h.drop k)
        · rfl
        · exact absurd hx hk
      rw [if_neg hk, ih p]
      constructor
      · rintro ⟨h1, h2, h3⟩
        refine ⟨Nat.lt_succ_of_lt h1, h2, ?_⟩
        intro j hj1 hj2
        by_cases hj : j < k
        · exact h3 j hj1 hj
        · have hjk : j = k := by omega
          subst hjk; exact hkf
      · rintro ⟨h1, h2, h3⟩
        have hpk : p ≠ k := by
          intro he; subst he; rw [h2] at hkf; cases hkf
        refine ⟨by omega, h2, ?_⟩
        intro j hj1 hj2
        exact h3 j hj1 (by omega)

lemma lastOccAux_eq_none_iff (n h : List Char) :
    ∀ k, lastOccAux n h k = Option.none ↔
      ∀ j, j < k → n.isPrefixOf (h.drop j) = false := by
  intro k
  induction k with
  | zero => simp [lastOccAux]
  | succ k ih =>
    rw [lastOccAux]
    by_cases hk : n.isPrefixOf (h.drop k) = true
    · rw [if_pos hk]
      constructor
      · intro he; exact absurd he (by simp)
      · intro hall
        have := hall k (Nat.lt_succ_self _)
        rw [hk] at this; cases this
    · have hkf : n.isPrefixOf (h.drop k) = false := by
        cases hx : n.isPrefixOf (h.drop k)
        · rfl
        · exact absurd hx hk
      rw [if_neg hk, ih]
      constructor
      · intro hall j hj
        by_cases hjk : j < k
        · exact hall j hjk
        · have : j = k := by omega
          subst this; exact hkf
      · intro hall j hj
        exact hall j (by omega)

/-- Characterization of `lastOcc`: the returned index carries an occurrence and
no larger index (within the string) does. -/
lemma lastOcc_eq_some_iff (n h : List Char) (p : Nat) :
    lastOcc n h = some p ↔
      p ≤ h.length ∧ n.isPrefixOf (h.drop p) = true ∧
        ∀ j, p < j → j ≤ h.length → n.isPrefixOf (h.drop j) = false := by
  rw [lastOcc, lastOccAux_eq_some_iff]
  constructor
  · rintro ⟨h1, h2, h3⟩
    exact ⟨Nat.lt_succ_iff.mp h1, h2, fun j a b => h3 j a (Nat.lt_succ_iff.mpr b)⟩
  · rintro ⟨h1, h2, h3⟩
    exact ⟨Nat.lt_succ_iff.mpr h1, h2, fun j a b => h3 j a (Nat.lt_succ_iff.mp b)⟩

lemma lastOcc_eq_none_iff (n h : List Char) :
    lastOcc n h = Option.none ↔
      ∀ j, j ≤ h.length → n.isPrefixOf (h.drop j) = false := by
  rw [lastOcc, lastOccAux_eq_none_iff]
  constructor
  · intro hall j hj; exact hall j (Nat.lt_succ_iff.mpr hj)
  · intro hall j hj; exact hall j (Nat.lt_succ_iff.mp hj)

lemma containsSub_true_iff (n h : List Char) :
    containsSub n h = true ↔
      ∃ j, j ≤ h.length ∧ n.isPrefixOf (h.drop j) = true := by
  rw [containsSub]
  cases e : lastOcc n h with
  | none =>
    rw [lastOcc_eq_none_iff] at e
    simp only [Option.isSome_none, Bool.false_eq_true, false_iff]
    rintro ⟨j, hj, hp⟩
    rw [e j hj] at hp; cases hp
  | some p =>
    rw [lastOcc_eq_some_iff] at e
    simp only [Option.isSome_some, true_iff]
    exact ⟨p, e.1, e.2.1⟩

lemma isPrefixOf_append_self (t r : List Char) : t.isPrefixOf (t ++ r) = true := by
  induction t with
  | nil => simp [List.isPrefixOf]
  | cons a t ih => simp [List.isPrefixOf, ih]

/-! ## Lemmas about `lower` -/

lemma lower_length (l : List Char) : (lower l).length = l.length := List.length_map l _

lemma lower_append (a b : List Char) : lower (a ++ b) = lower a ++ lower b :=
  List.map_append _ a b

lemma lower_take (n : Nat) (l : List Char) : lower (l.take n) = (lower l).take n :=
  List.map_take _ l n

lemma lower_drop (n : Nat) (l : List Char) : lower (l.drop n) = (lower l).drop n :=
  List.map_drop _ l n

lemma lower_cons (c : Char) (l : List Char) : lower (c :: l) = c.toLower :: lower l := rfl

/-! ## The three branches of `inject` -/

lemma inject_marker_missing (content src marker : List Char)
    (h : lastOcc (lower marker) (lower content) = Option.none) :
    inject content src marker = Option.none := by
  simp only [inject, h]

lemma inject_already_present (content src marker : List Char) (pos : Nat)
    (h : lastOcc (lower marker) (lower content) = some pos)
    (w : containsSub (scriptTag src)
        (slice content (pos - ((scriptTag src).length + 10)) pos) = true) :
    inject content src marker = some (content, false) := by
  simp only [inject, h, w, if_true]

lemma inject_fresh (content src marker : List Char) (pos : Nat)
    (h : lastOcc (lower marker) (lower content) = some pos)
    (w : containsSub (scriptTag src)
        (slice content (pos - ((scriptTag src).length + 10)) pos) = false) :
    inject content src marker =
      some (content.take pos ++ scriptTag src ++ '\n' :: content.drop pos, true) := by
  simp only [inject, h, w, Bool.false_eq_true, if_false]

/-! ## Structure of the text after an insertion at `pos` -/

/-- Taking the first `pos + |t| + 1` characters of the text with `t ++ "\n"`
inserted at `pos` yields the original prefix followed by `t ++ "\n"`. -/
lemma take_insert_eq (c t : List Char) (pos : Nat) (hp : pos ≤ c.length) :
    (c.take pos ++ t ++ '\n' :: c.drop pos).take (pos + t.length + 1) =
      c.take pos ++ (t ++ ['\n']) := by
  have h1 : c.take pos ++ t ++ '\n' :: c.drop pos =
      (c.take pos ++ (t ++ ['\n'])) ++ c.drop pos := by
    simp [List.append_assoc]
  rw [h1]
  exact List.take_left' (by simp [List.length_append, List.length_take]; omega)

/-- Dropping `j ≥ pos + |t| + 1` characters of the text with `t ++ "\n"`
inserted at `pos` lands in the original suffix, shifted by `|t| + 1`. -/
lemma drop_insert_ge (c t : List Char) (pos j : Nat) (hp : pos ≤ c.length)
    (hj : pos + t.length + 1 ≤ j) :
    (c.take pos ++ t ++ '\n' :: c.drop pos).drop j = c.drop (j - t.length - 1) := by
  obtain ⟨i, rfl⟩ : ∃ i, j = (pos + t.length + 1) + i := ⟨j - (pos + t.length + 1), by omega⟩
  have h1 : c.take pos ++ t ++ '\n' :: c.drop pos =
      (c.take pos ++ (t ++ ['\n'])) ++ c.drop pos := by
    simp [List.append_assoc]
  rw [h1, ← List.drop_drop,
    List.drop_left' (by simp [List.length_append, List.length_take]; omega),
    List.drop_drop]
  congr 1
  omega

/-- Claim C4: injection is idempotent.  A successful run of the injector,
applied a second time to its own output with the same snippet and marker,
succeeds and returns the text unchanged with the no-write flag (the idempotence
window always contains the tag just inserted, because the last marker
occurrence has shifted by exactly `|tag| + 1`). -/
theorem inject_idempotent (content src marker : List Char) (out : List Char × Bool)
    (h : inject content src marker = some out) :
    inject out.1 src marker = some (out.1, false) := by
  cases e : lastOcc (lower marker) (lower content) with
  | none => rw [inject_marker_missing content src marker e] at h; cases h
  | some pos =>
    cases w : containsSub (scriptTag src)
        (slice content (pos - ((scriptTag src).length + 10)) pos) with
    | true =>
      have hi := inject_already_present content src marker pos e w
      rw [hi] at h
      obtain rfl : (content, false) = out := Option.some.inj h
      exact hi
    | false =>
      have hi := inject_fresh content src marker pos e w
      rw [hi] at h
      obtain rfl : (content.take pos ++ scriptTag src ++ '\n' :: content.drop pos, true) = out :=
        Option.some.inj h
      obtain ⟨hple, hpref, hmax⟩ := (lastOcc_eq_some_iff _ _ _).mp e
      have hplen : pos ≤ content.length := by rw [lower_length] at hple; exact hple
      have hLl : (lower (scriptTag src)).length = (scriptTag src).length := lower_length _
      have hlowC2 : lower (content.take pos ++ scriptTag src ++ '\n' :: content.drop pos) =
          (lower content).take pos ++ lower (scriptTag src) ++
            '\n' :: (lower content).drop pos := by
        rw [lower_append, lower_append, lower_cons, lower_take, lower_drop]
        rfl
      have hlen2 : ((lower content).take pos ++ lower (scriptTag src) ++
          '\n' :: (lower content).drop pos).length =
            (lower content).length + (scriptTag src).length + 1 := by
        simp [List.length_append, List.length_take, List.length_drop, lower_length]
        omega
      have e2 : lastOcc (lower marker)
          (lower (content.take pos ++ scriptTag src ++ '\n' :: content.drop pos)) =
            some (pos + (scriptTag src).length + 1) := by
        rw [hlowC2, lastOcc_eq_some_iff]
        refine ⟨?_, ?_, ?_⟩
        · rw [hlen2]; rw [lower_length]; omega
        · rw [drop_insert_ge (lower content) (lower (scriptTag src)) pos _
            (by rw [lower_length]; exact hplen) (by rw [hLl])]
          rw [show pos + (scriptTag src).length + 1 - (lower (scriptTag src)).length - 1 = pos
            from by rw [hLl]; omega]
          exact hpref
        · intro j hj1 hj2
          rw [hlen2] at hj2
          rw [drop_insert_ge (lower content) (lower (scriptTag src)) pos _
            (by rw [lower_length]; exact hplen) (by rw [hLl]; omega)]
          exact hmax _ (by rw [hLl]; omega) (by rw [hLl]; omega)
      have w2 : containsSub (scriptTag src)
          (slice (content.take pos ++ scriptTag src ++ '\n' :: content.drop pos)
            ((pos + (scriptTag src).length + 1) - ((scriptTag src).length + 10))
            (pos + (scriptTag src).length + 1)) = true := by
        rw [containsSub_true_iff, slice,
          take_insert_eq content (scriptTag src) pos hplen]
        generalize ha : (pos + (scriptTag src).length + 1) - ((scriptTag src).length + 10) = a
        refine ⟨pos - a, ?_, ?_⟩
        · rw [List.length_drop]
          simp [List.length_append, List.length_take]
          omega
        · rw [List.drop_drop,
            show a + (pos - a) = pos from by omega,
            List.drop_left' (by rw [List.length_take]; omega)]
          exact isPrefixOf_append_self _ _
      exact inject_already_present _ src marker (pos + (scriptTag src).length + 1) e2 w2

/-! ## Lemmas about `vlt` (Python tuple comparison) -/

lemma vlt_irrefl (a : Nat × Nat × Nat) : vlt a a = false := by
  obtain ⟨a1, a2, a3⟩ := a
  simp [vlt]

lemma vlt_asymm (a b : Nat × Nat × Nat) (h : vlt a b = true) : vlt b a = false := by
  obtain ⟨a1, a2, a3⟩ := a
  obtain ⟨b1, b2, b3⟩ := b
  simp only [vlt, Bool.or_eq_true, Bool.and_eq_true, decide_eq_true_eq,
    Bool.or_eq_false_iff, Bool.and_eq_false_iff, decide_eq_false_iff_not] at h ⊢
  omega

lemma vlt_cotrans (a b c : Nat × Nat × Nat) (h : vlt a c = true) :
    vlt a b = true ∨ vlt b c = true := by
  obtain ⟨a1, a2, a3⟩ := a
  obtain ⟨b1, b2, b3⟩ := b
  obtain ⟨c1, c2, c3⟩ := c
  simp only [vlt, Bool.or_eq_true, Bool.and_eq_true, decide_eq_true_eq] at h ⊢
  omega

/-! ## Lemmas about `maxSel` -/

lemma maxSel_eq_none_iff (l : List ((Nat × Nat × Nat) × List Char)) :
    maxSel l = Option.none ↔ l = [] := by
  cases l with
  | nil => simp [maxSel]
  | cons p rest =>
    cases e : maxSel rest with
    | none => simp [maxSel, e]
    | some q =>
      simp only [maxSel, e]
      split <;> simp

lemma maxSel_mem (l : List ((Nat × Nat × Nat) × List Char))
    (p : (Nat × Nat × Nat) × List Char) (h : maxSel l = some p) : p ∈ l := by
  induction l with
  | nil => simp [maxSel] at h
  | cons a rest ih =>
    cases e : maxSel rest with
    | none =>
      simp only [maxSel, e] at h
      obtain rfl : a = p := Option.some.inj h
      exact List.mem_cons_self _ _
    | some q =>
      simp only [maxSel, e] at h
      by_cases hv : vlt a.1 q.1 = true
      · rw [if_pos hv] at h
        obtain rfl : q = p := Option.some.inj h
        exact List.mem_cons_of_mem _ (ih e)
      · rw [if_neg hv] at h
        obtain rfl : a = p := Option.some.inj h
        exact List.mem_cons_self _ _

lemma maxSel_max (l : List ((Nat × Nat × Nat) × List Char)) :
    ∀ p, maxSel l = some p → ∀ q ∈ l, vlt p.1 q.1 = false := by
  induction l with
  | nil => intro p h; simp [maxSel] at h
  | cons a rest ih =>
    intro p h q hq
    cases e : maxSel rest with
    | none =>
      simp only [maxSel, e] at h
      obtain rfl : a = p := Option.some.inj h
      have : rest = [] := (maxSel_eq_none_iff rest).mp e
      subst this
      rcases List.mem_cons.mp hq with rfl | hq'
      · exact vlt_irrefl _
      · cases hq'
    | some m =>
      simp only [maxSel, e] at h
      by_cases hv : vlt a.1 m.1 = true
      · rw [if_pos hv] at h
        obtain rfl : m = p := Option.some.inj h
        rcases List.mem_cons.mp hq with rfl | hq'
        · exact vlt_asymm _ _ hv
        · exact ih m e q hq'
      · rw [if_neg hv] at h
        obtain rfl : a = p := Option.some.inj h
        rcases List.mem_cons.mp hq with rfl | hq'
        · exact vlt_irrefl _
        · have hmq := ih m e q hq'
          cases hpq : vlt a.1 q.1
          · rfl
          · rcases vlt_cotrans a.1 m.1 q.1 hpq with h1 | h2
            · exact absurd h1 hv
            · rw [hmq] at h2; cases h2

/-! ## Commit-step theorems (claims C1, C6, C9) -/

/-- Claim C1: when the second rename of the commit step fails, the rollback
path never deletes both the backup and the modified tree: the modified tree
stays at the temporary path, and either the original archive is restored
(`RolledBack`) or the backup file is still on disk while the failure is
reported (`abortedRestoreFailed`). -/
theorem commit_rollback_never_loses_both (env : CommitEnv) (d0 : Disk) (oc mc : Nat)
    (h1 : d0.orig = FsNode.file oc) (h2 : d0.temp = FsNode.dir mc)
    (h3 : env.renameToBackupOk = true)
    (h4 : d0.backup = FsNode.absent ∨ env.removeBackupOk = true)
    (h5 : env.renameTempOk = false) :
    ((commitStep env d0).1.getLastD d0).temp = FsNode.dir mc ∧
      (((commitStep env d0).2 = Outcome.rolledBack ∧
          ((commitStep env d0).1.getLastD d0).orig = FsNode.file oc ∧
          ((commitStep env d0).1.getLastD d0).backup = FsNode.absent) ∨
        ((commitStep env d0).2 = Outcome.abortedRestoreFailed ∧
          ((commitStep env d0).1.getLastD d0).backup = FsNode.file oc)) := by
  obtain ⟨o, b, t⟩ := d0
  obtain ⟨e1, e2, e3, e4, e5, e6⟩ := env
  dsimp only at h1 h2 h3 h4 h5
  subst h1 h2 h3 h5
  cases b with
  | absent =>
    cases e6 <;>
      simp [commitStep, backupRename, targetFileGuard, renameTempStep, rollback,
        rollbackRestore, List.getLastD]
  | file c =>
    rcases h4 with h4 | h4
    · cases h4
    · subst h4
      cases e6 <;>
        simp [commitStep, backupRename, targetFileGuard, renameTempStep, rollback,
          rollbackRestore, List.getLastD]
  | dir c =>
    rcases h4 with h4 | h4
    · cases h4
    · subst h4
      cases e6 <;>
        simp [commitStep, backupRename, targetFileGuard, renameTempStep, rollback,
          rollbackRestore, List.getLastD]

/-- Claim C6 (amended): a failing removal of a stale backup raises `OSError`
inside the same `try` as the backup rename, so the run aborts at once with the
disk untouched; the backup rename is never attempted. -/
theorem stale_backup_removal_fatal (env : CommitEnv) (d0 : Disk)
    (h1 : d0.backup ≠ FsNode.absent) (h2 : env.removeBackupOk = false) :
    commitStep env d0 = ([d0], Outcome.abortedBackupStep) := by
  obtain ⟨o, b, t⟩ := d0
  obtain ⟨e1, e2, e3, e4, e5, e6⟩ := env
  dsimp only at h1 h2
  subst h2
  cases b with
  | absent => exact absurd rfl h1
  | file c => simp [commitStep]
  | dir c => simp [commitStep]

/-- Claim C6 counterexample: with a stale backup present and its removal
failing, the run aborts (the claim says it must continue with the rename and
never abort); the original file is still in place, i.e. the rename never ran. -/
theorem stale_backup_removal_aborts_counterexample :
    commitStep ⟨false, true, true, true, true, true⟩
        ⟨FsNode.file 0, FsNode.file 7, FsNode.dir 1⟩ =
      ([⟨FsNode.file 0, FsNode.file 7, FsNode.dir 1⟩], Outcome.abortedBackupStep) := by
  decide

/-- Claim C9 (amended): throughout the commit step, the original archive's
content survives (as the file at the archive path or as the backup file), and
the modified tree survives (at the temporary path or as the directory at the
archive path). -/
theorem commit_preserves_original_content (env : CommitEnv) (d0 : Disk) (oc mc : Nat)
    (h1 : d0.orig = FsNode.file oc) (h2 : d0.temp = FsNode.dir mc) :
    ∀ s ∈ (commitStep env d0).1,
      (s.orig = FsNode.file oc ∨ s.backup = FsNode.file oc) ∧
      (s.temp = FsNode.dir mc ∨ s.orig = FsNode.dir mc) := by
  obtain ⟨o, b, t⟩ := d0
  obtain ⟨e1, e2, e3, e4, e5, e6⟩ := env
  dsimp only at h1 h2
  subst h1 h2
  cases b <;> cases e1 <;> cases e2 <;> cases e4 <;> cases e6 <;>
    simp [commitStep, backupRename, targetFileGuard, renameTempStep, rollback,
      rollbackRestore, List.forall_mem_cons]

/-- Claim C9 counterexample: after a fully successful commit, the backup file
and the modified directory-in-place-of-archive exist at the same time, so "at
most one of {original archive file, backup file, modified directory} exists at
any point" fails at the final state of the trace. -/
theorem commit_both_artifacts_counterexample :
    (commitStep ⟨true, true, true, true, true, true⟩
        ⟨FsNode.file 0, FsNode.absent, FsNode.dir 1⟩).1.getLastD
        ⟨FsNode.file 0, FsNode.absent, FsNode.dir 1⟩ =
      ⟨FsNode.dir 1, FsNode.file 0, FsNode.absent⟩ ∧
    (⟨FsNode.dir 1, FsNode.file 0, FsNode.absent⟩ : Disk) ∈
      (commitStep ⟨true, true, true, true, true, true⟩
        ⟨FsNode.file 0, FsNode.absent, FsNode.dir 1⟩).1 ∧
    (FsNode.file 0 ≠ FsNode.absent ∧ FsNode.dir 1 ≠ FsNode.absent) := by
  refine ⟨by decide, by decide, by decide, by decide⟩

/-! ## `download_file` theorems (claim C7) -/

/-- Claim C7 (amended): a `RequestException` during streaming removes the
partial file when the removal succeeds (a failing removal is swallowed and
leaves the partial file), while an `OSError` during writing returns failure
with the partial file left in place. -/
theorem download_file_cleanup (env : DlEnv) (dest0 : Option (List Nat)) :
    (env.mkdirOk = true → env.connectOk = true → env.openOk = true →
      env.stop = DlStop.transportErr → env.unlinkOk = true →
      download_file env dest0 = (false, Option.none)) ∧
    (env.mkdirOk = true → env.connectOk = true → env.openOk = true →
      env.stop = DlStop.transportErr → env.unlinkOk = false →
      download_file env dest0 = (false, some env.chunksWritten.flatten)) ∧
    (env.mkdirOk = true → env.connectOk = true → env.openOk = true →
      env.stop = DlStop.writeErr →
      download_file env dest0 = (false, some env.chunksWritten.flatten)) := by
  obtain ⟨m, c, o, ch, st, u⟩ := env
  refine ⟨?_, ?_, ?_⟩
  · intro hm hc ho hst hu
    dsimp only at hm hc ho hst hu
    subst hm; subst hc; subst ho; subst hst; subst hu
    simp [download_file, cleanupDest]
  · intro hm hc ho hst hu
    dsimp only at hm hc ho hst hu
    subst hm; subst hc; subst ho; subst hst; subst hu
    simp [download_file, cleanupDest]
  · intro hm hc ho hst
    dsimp only at hm hc ho hst
    subst hm; subst hc; subst ho; subst hst
    simp [download_file, cleanupDest]

/-- Claim C7 counterexample: an `OSError` while writing (e.g. disk full after
the first chunk) makes `download_file` return failure with the partially
written bytes still at the destination — the partial file is not removed. -/
theorem download_writeErr_leaves_partial_counterexample :
    download_file ⟨true, true, true, [[1, 2, 3]], DlStop.writeErr, true⟩ Option.none =
      (false, some [1, 2, 3]) := by
  decide

/-! ## Tool-resolution theorems (claim C8) -/

/-- Claim C8 (amended): when `shutil.which` cannot find the tool (modelled off
Windows so the npm fallbacks do not apply), `get_asar_executable` soft-falls
back to the bare name `'asar'`, but `extract_asar` then re-checks
`shutil.which('asar')` and hard-fails *before any invocation is attempted*. -/
theorem extract_asar_hard_abort (env : ExtractEnv)
    (hw : env.tool.whichResults "asar".data = Option.none)
    (hwin : env.tool.isWin32 = false) :
    get_asar_executable env.tool = "asar".data ∧ extract_asar env = (false, false) := by
  have hg : get_asar_executable env.tool = "asar".data := by
    cases e : env.tool.appdata with
    | none => simp [get_asar_executable, hw, e]
    | some a => simp [get_asar_executable, hw, e, hwin]
  refine ⟨hg, ?_⟩
  simp [extract_asar, hg, hw]

/-- Claim C8 counterexample: with the tool absent from the search path,
resolution falls back to `'asar'` yet extraction aborts with a hard failure
and the tool is never invoked (second component `false` = `subprocess.run`
not reached), contradicting "extraction still proceeds to invoke the tool". -/
theorem extract_asar_no_invocation_counterexample :
    get_asar_executable ⟨fun _ => Option.none, false, Option.none, false, false⟩ =
      "asar".data ∧
    extract_asar ⟨⟨fun _ => Option.none, false, Option.none, false, false⟩,
        true, false, true, true, RunResult.success⟩ = (false, false) :=
  ⟨rfl, rfl⟩

/-! ## Byte-level injection failure (claim C10) -/

/-- Claim C10: if the HTML bytes cannot be decoded by any of the tried
encodings, or decode to text containing no case-insensitive occurrence of the
marker, `inject_script_to_html` returns failure and the file bytes are
unchanged. -/
theorem inject_html_failure_atomic (bytes : List Nat) (src marker : List Char) :
    (readContent bytes = Option.none →
      inject_script_to_html bytes src marker = (false, bytes)) ∧
    (∀ content enc, readContent bytes = some (content, enc) →
      lastOcc (lower marker) (lower content) = Option.none →
      inject_script_to_html bytes src marker = (false, bytes)) := by
  constructor
  · intro h
    simp [inject_script_to_html, h]
  · intro content enc h hm
    simp [inject_script_to_html, h, inject_marker_missing content src marker hm]

/-! ## Injection position (claim C5) -/

/-- Claim C5: for decodable text containing the marker (case-insensitively)
and not already containing the snippet in the pre-insertion window, the
injector inserts the tag followed by a newline immediately before the *last*
case-insensitive marker occurrence — the marker occurs at the insertion point
and at no later position — and the scenario from the spec evaluates exactly as
stated. -/
theorem inject_inserts_before_last_marker :
    (∀ (content src marker : List Char) (pos : Nat),
        lastOcc (lower marker) (lower content) = some pos →
        containsSub (scriptTag src)
          (slice content (pos - ((scriptTag src).length + 10)) pos) = false →
        (lower marker).isPrefixOf ((lower content).drop pos) = true ∧
        (∀ j, pos < j → j ≤ content.length →
          (lower marker).isPrefixOf ((lower content).drop j) = false) ∧
        inject content src marker =
          some (content.take pos ++ scriptTag src ++ '\n' :: content.drop pos, true)) ∧
    inject "...<p>hi</p></body></html>".data "./x.js".data "</body>".data =
      some ("...<p>hi</p><script src=\"./x.js\"></script>\n</body></html>".data, true) := by
  constructor
  · intro content src marker pos e w
    obtain ⟨hple, hpref, hmax⟩ := (lastOcc_eq_some_iff _ _ _).mp e
    refine ⟨hpref, ?_, inject_fresh content src marker pos e w⟩
    intro j hj1 hj2
    exact hmax j hj1 (by rw [lower_length]; exact hj2)
  · decide

/-! ## Version selection (claims C2, C3) -/

/-- Claim C2: version selection returns `none` exactly when no folder name
parses; otherwise it returns a folder from the input whose parsed version is
maximal in the lexicographic tuple order; and names that do not match the
pattern are silently excluded (filtering them away first changes nothing). -/
theorem selectLatest_spec (names : List (List Char)) :
    (selectLatest names = Option.none ↔ ∀ n ∈ names, parse_version n = Option.none) ∧
    (∀ v n, selectLatest names = some (v, n) →
        n ∈ names ∧ parse_version n = some v ∧
          ∀ m w, m ∈ names → parse_version m = some w → vlt v w = false) ∧
    selectLatest names =
      selectLatest (names.filter fun n => (parse_version n).isSome) := by
  refine ⟨?_, ?_, ?_⟩
  · rw [selectLatest, maxSel_eq_none_iff, List.filterMap_eq_nil_iff]
    constructor
    · intro hall n hn
      exact Option.map_eq_none'.mp (hall n hn)
    · intro hall n hn
      rw [hall n hn]; rfl
  · intro v n h
    have hmem := maxSel_mem _ _ h
    rw [List.mem_filterMap] at hmem
    obtain ⟨m0, hm0, hsome⟩ := hmem
    obtain ⟨v0, hv0, hpair⟩ := Option.map_eq_some'.mp hsome
    injection hpair with hp1 hp2
    subst hp1; subst hp2
    refine ⟨hm0, hv0, ?_⟩
    intro m w hm hw
    have hw' : (w, m) ∈ names.filterMap fun n => (parse_version n).map (fun v => (v, n)) := by
      rw [List.mem_filterMap]
      exact ⟨m, hm, by rw [hw]; rfl⟩
    exact maxSel_max _ _ h _ hw'
  · rw [selectLatest, selectLatest]
    congr 1
    induction names with
    | nil => rfl
    | cons a rest ih =>
      cases e : parse_version a with
      | none => simp [List.filterMap_cons, List.filter_cons, e, ih]
      | some v => simp [List.filterMap_cons, List.filter_cons, e, ih]

/-- Claim C3 counterexample: the source's pattern requires a `Zalo`/`ZaloPC`
prefix, so none of `App-1.2.3`, `App-1.10.0`, `unrelated` parses and selection
returns `none` (a not-found outcome) instead of picking `App-1.10.0`. -/
theorem selectLatest_app_counterexample :
    selectLatest ["App-1.2.3".data, "App-1.10.0".data, "unrelated".data] = Option.none ∧
    parse_version "App-1.10.0".data = Option.none := by
  exact ⟨by decide, by decide⟩

/-- Claim C3 (amended): with the prefix the code actually matches, a base
directory holding exactly `Zalo-1.2.3`, `Zalo-1.10.0` and `unrelated` selects
`Zalo-1.10.0`, because the second component is compared numerically
(`2 < 10` as integers, though `"10" < "2"` as strings). -/
theorem selectLatest_numeric_amended :
    selectLatest ["Zalo-1.2.3".data, "Zalo-1.10.0".data, "unrelated".data] =
      some ((1, 10, 0), "Zalo-1.10.0".data) ∧
    vlt (1, 2, 3) (1, 10, 0) = true := by
  exact ⟨by decide, by decide⟩

/-! ## Witnesses -/

/-- Witness for C1 at a concrete environment: second rename fails, rollback
rename succeeds — the run reports `RolledBack` with the original restored and
the modified tree still at the temporary path. -/
theorem commit_rollback_never_loses_both_witness :
    ((commitStep ⟨true, true, true, false, true, true⟩
        ⟨FsNode.file 0, FsNode.absent, FsNode.dir 1⟩).1.getLastD
        ⟨FsNode.file 0, FsNode.absent, FsNode.dir 1⟩).temp = FsNode.dir 1 ∧
      (((commitStep ⟨true, true, true, false, true, true⟩
          ⟨FsNode.file 0, FsNode.absent, FsNode.dir 1⟩).2 = Outcome.rolledBack ∧
          ((commitStep ⟨true, true, true, false, true, true⟩
            ⟨FsNode.file 0, FsNode.absent, FsNode.dir 1⟩).1.getLastD
            ⟨FsNode.file 0, FsNode.absent, FsNode.dir 1⟩).orig = FsNode.file 0 ∧
          ((commitStep ⟨true, true, true, false, true, true⟩
            ⟨FsNode.file 0, FsNode.absent, FsNode.dir 1⟩).1.getLastD
            ⟨FsNode.file 0, FsNode.absent, FsNode.dir 1⟩).backup = FsNode.absent) ∨
        ((commitStep ⟨true, true, true, false, true, true⟩
          ⟨FsNode.file 0, FsNode.absent, FsNode.dir 1⟩).2 = Outcome.abortedRestoreFailed ∧
          ((commitStep ⟨true, true, true, false, true, true⟩
            ⟨FsNode.file 0, FsNode.absent, FsNode.dir 1⟩).1.getLastD
            ⟨FsNode.file 0, FsNode.absent, FsNode.dir 1⟩).backup = FsNode.file 0)) :=
  commit_rollback_never_loses_both ⟨true, true, true, false, true, true⟩
    ⟨FsNode.file 0, FsNode.absent, FsNode.dir 1⟩ 0 1 rfl rfl rfl (Or.inl rfl) rfl

/-- Witness for C2 at a concrete folder list. -/
theorem selectLatest_spec_witness :
    "Zalo-2.0.1".data ∈ ["Zalo-2.0.1".data, "junk".data] ∧
    parse_version "Zalo-2.0.1".data = some (2, 0, 1) ∧
    vlt (2, 0, 1) (2, 0, 1) = false := by
  have h := (selectLatest_spec ["Zalo-2.0.1".data, "junk".data]).2.1 (2, 0, 1)
    "Zalo-2.0.1".data (by decide)
  exact ⟨h.1, h.2.1, h.2.2 "Zalo-2.0.1".data (2, 0, 1) h.1 h.2.1⟩

/-- Witness for C4: re-running the injector on the already-injected scenario
document succeeds without a write. -/
theorem inject_idempotent_witness :
    inject "...<p>hi</p><script src=\"./x.js\"></script>\n</body></html>".data
        "./x.js".data "</body>".data =
      some ("...<p>hi</p><script src=\"./x.js\"></script>\n</body></html>".data, false) :=
  inject_idempotent "...<p>hi</p></body></html>".data "./x.js".data "</body>".data
    ("...<p>hi</p><script src=\"./x.js\"></script>\n</body></html>".data, true) (by decide)

/-- Witness for C5: the general statement instantiated at the scenario
document, with the last marker occurrence at index 12. -/
theorem inject_inserts_before_last_marker_witness :
    inject "...<p>hi</p></body></html>".data "./x.js".data "</body>".data =
      some (("...<p>hi</p></body></html>".data).take 12 ++ scriptTag "./x.js".data ++
        '\n' :: ("...<p>hi</p></body></html>".data).drop 12, true) :=
  (inject_inserts_before_last_marker.1 "...<p>hi</p></body></html>".data "./x.js".data
    "</body>".data 12 (by decide) (by decide)).2.2

/-- Witness for C6 (amended) with a stale backup that is a directory. -/
theorem stale_backup_removal_fatal_witness :
    commitStep ⟨false, true, true, true, true, true⟩
        ⟨FsNode.file 0, FsNode.dir 5, FsNode.dir 1⟩ =
      ([⟨FsNode.file 0, FsNode.dir 5, FsNode.dir 1⟩], Outcome.abortedBackupStep) :=
  stale_backup_removal_fatal ⟨false, true, true, true, true, true⟩
    ⟨FsNode.file 0, FsNode.dir 5, FsNode.dir 1⟩ (by decide) rfl

/-- Witness for C7 (amended): transport error with a successful unlink removes
the partial file. -/
theorem download_file_cleanup_witness :
    download_file ⟨true, true, true, [[9]], DlStop.transportErr, true⟩ (some [5]) =
      (false, Option.none) :=
  (download_file_cleanup ⟨true, true, true, [[9]], DlStop.transportErr, true⟩
    (some [5])).1 rfl rfl rfl rfl rfl

/-- Witness for C8 (amended) at a concrete environment with `APPDATA` set but
off Windows. -/
theorem extract_asar_hard_abort_witness :
    get_asar_executable ⟨fun _ => Option.none, false, some "x".data, true, true⟩ =
      "asar".data ∧
    extract_asar ⟨⟨fun _ => Option.none, false, some "x".data, true, true⟩,
        true, true, true, true, RunResult.success⟩ = (false, false) :=
  extract_asar_hard_abort ⟨⟨fun _ => Option.none, false, some "x".data, true, true⟩,
    true, true, true, true, RunResult.success⟩ rfl rfl

/-- Witness for C9 (amended), instantiated at the final state of a successful
commit: the original content survives in the backup, the modified tree
survives as the directory at the archive path. -/
theorem commit_preserves_original_content_witness :
    ((⟨FsNode.dir 1, FsNode.file 0, FsNode.absent⟩ : Disk).orig = FsNode.file 0 ∨
      (⟨FsNode.dir 1, FsNode.file 0, FsNode.absent⟩ : Disk).backup = FsNode.file 0) ∧
    ((⟨FsNode.dir 1, FsNode.file 0, FsNode.absent⟩ : Disk).temp = FsNode.dir 1 ∨
      (⟨FsNode.dir 1, FsNode.file 0, FsNode.absent⟩ : Disk).orig = FsNode.dir 1) :=
  commit_preserves_original_content ⟨true, true, true, true, true, true⟩
    ⟨FsNode.file 0, FsNode.absent, FsNode.dir 1⟩ 0 1 rfl rfl
    ⟨FsNode.dir 1, FsNode.file 0, FsNode.absent⟩ (by decide)

/-- Witness for C10: a decodable document (`"hi"`) with no marker occurrence
is left unchanged. -/
theorem inject_html_failure_atomic_witness :
    inject_script_to_html [104, 105] "./x.js".data "</body>".data = (false, [104, 105]) :=
  (inject_html_failure_atomic [104, 105] "./x.js".data "</body>".data).2
    "hi".data Enc.utf8 (by decide) (by decide)

end Installer
